import Mathlib

/-!
Verification of the solar-inverter firmware pair: the per-module converter
firmware (`inverter_module_2.ino`) and the master controller. Numeric C
values are embedded as `Nat`/`Int`/`Rat`: the 16-bit AVR unsigned arithmetic
on the duty value is made explicit with `% 2^16` where the source can
overflow, and the sensed analog quantities (volts, amps, watts, degrees) are
rationals. `Serial.print(float)` prints two decimal places; it is embedded
as exact decimal printing of the rational reading rounded to two places
(`fmt2`), which matches the Arduino routine whenever the value printed is
the sensed rational itself. C library `atoi`/`atof` are embedded by
`atoiZ`/`atofQ`, which agree with them on every string the firmware
exchanges (optional sign, digits, optional fraction, terminated by a
non-digit).
-/

/-! ## Characters and decimal digits -/

/-- The character for a single decimal digit, as produced by the Arduino
decimal printing routines. -/
def digCh (d : ℕ) : Char := Char.ofNat (48 + d)

/-- C `isspace`: the six standard whitespace characters. -/
def isspaceC (c : Char) : Bool :=
  c = ' ' ∨ c = '\t' ∨ c = '\n' ∨ c = '\x0b' ∨ c = '\x0c' ∨ c = '\r'

/-- Greedy run of decimal digits, accumulating the value; returns the value
and the unconsumed remainder.  This is the digit loop shared by `atoi` and
`atof`. -/
def atoiDigits : List Char → ℕ → ℕ × List Char
  | [], acc => (acc, [])
  | c :: cs, acc =>
    if c.isDigit then atoiDigits cs (acc * 10 + (c.toNat - 48)) else (acc, c :: cs)

/-- Fuel-driven decimal printing of a natural number (most significant digit
first); the fuel only has to exceed the number itself. -/
def natDigitsAux : ℕ → ℕ → List Char
  | 0, _ => []
  | fuel + 1, n =>
    if n < 10 then [digCh n] else natDigitsAux fuel (n / 10) ++ [digCh (n % 10)]

/-- Decimal digits of a natural number, as printed by `Serial.print` for the
integer types used by the firmware. -/
def natDigits (n : ℕ) : List Char := natDigitsAux (n + 1) n

theorem natDigitsAux_congr :
    ∀ f₁ f₂ n, n < f₁ → n < f₂ → natDigitsAux f₁ n = natDigitsAux f₂ n := by
  intro f₁
  induction f₁ with
  | zero => intro f₂ n h; omega
  | succ f ih =>
    intro f₂ n h₁ h₂
    cases f₂ with
    | zero => omega
    | succ g =>
      show natDigitsAux (f + 1) n = natDigitsAux (g + 1) n
      simp only [natDigitsAux]
      by_cases hn : n < 10
      · simp [hn]
      · have hd : n / 10 < n := Nat.div_lt_self (by omega) (by omega)
        simp only [hn, if_false]
        rw [ih g (n / 10) (by omega) (by omega)]

/-- The defining recursion of `natDigits`, independent of fuel. -/
theorem natDigits_eq (n : ℕ) :
    natDigits n = if n < 10 then [digCh n] else natDigits (n / 10) ++ [digCh (n % 10)] := by
  show natDigitsAux (n + 1) n = _
  by_cases hn : n < 10
  · simp [natDigitsAux, hn]
  · have hd : n / 10 < n := Nat.div_lt_self (by omega) (by omega)
    simp only [natDigitsAux, hn, if_false]
    rw [natDigitsAux_congr n (n / 10 + 1) (n / 10) (by omega) (by omega)]
    rfl

/-- All the character-level facts needed about digit characters. -/
theorem digCh_facts : ∀ d : ℕ, d < 10 →
    (digCh d).isDigit = true ∧ isspaceC (digCh d) = false ∧
    digCh d ≠ '-' ∧ digCh d ≠ '+' ∧ digCh d ≠ ';' ∧ digCh d ≠ '.' ∧
    digCh d ≠ ':' ∧ (digCh d).toNat - 48 = d := by decide

theorem natDigits_shape (n : ℕ) : ∃ d t, d < 10 ∧ natDigits n = digCh d :: t := by
  induction n using Nat.strong_induction_on with
  | _ n ih =>
    rw [natDigits_eq]
    by_cases hn : n < 10
    · exact ⟨n, [], hn, by simp [hn]⟩
    · obtain ⟨d, t, hd, ht⟩ := ih (n / 10) (Nat.div_lt_self (by omega) (by omega))
      exact ⟨d, t ++ [digCh (n % 10)], hd, by simp [hn, ht]⟩

theorem natDigits_mem (n : ℕ) : ∀ c ∈ natDigits n, ∃ d, d < 10 ∧ c = digCh d := by
  induction n using Nat.strong_induction_on with
  | _ n ih =>
    intro c hc
    rw [natDigits_eq] at hc
    by_cases hn : n < 10
    · simp [hn] at hc; exact ⟨n, hn, hc⟩
    · simp only [hn, if_false, List.mem_append, List.mem_singleton] at hc
      rcases hc with hc | hc
      · exact ih (n / 10) (Nat.div_lt_self (by omega) (by omega)) c hc
      · exact ⟨n % 10, by omega, hc⟩

theorem natDigits_length_pos (n : ℕ) : 0 < (natDigits n).length := by
  obtain ⟨d, t, _, ht⟩ := natDigits_shape n
  simp [ht]

theorem semi_not_mem_natDigits (n : ℕ) : ';' ∉ natDigits n := by
  intro h
  obtain ⟨d, hd, hc⟩ := natDigits_mem n ';' h
  exact (digCh_facts d hd).2.2.2.2.1 hc.symm

/-- Reading back the digits just printed: the digit loop consumes exactly
`natDigits n` and produces `n` (times the power of ten shifted into `acc`). -/
theorem atoiDigits_natDigits (n : ℕ) :
    ∀ rest acc, atoiDigits (natDigits n ++ rest) acc =
      atoiDigits rest (acc * 10 ^ (natDigits n).length + n) := by
  induction n using Nat.strong_induction_on with
  | _ n ih =>
    intro rest acc
    rw [natDigits_eq]
    by_cases hn : n < 10
    · simp only [hn, if_true, List.cons_append, List.nil_append, atoiDigits,
        (digCh_facts n hn).1, if_true, List.length_cons, List.length_nil]
      rw [(digCh_facts n hn).2.2.2.2.2.2.2]
      norm_num
    · have hd : n / 10 < n := Nat.div_lt_self (by omega) (by omega)
      have hm : n % 10 < 10 := by omega
      simp only [hn, if_false, List.append_assoc, List.singleton_append]
      rw [ih (n / 10) hd]
      simp only [atoiDigits, (digCh_facts _ hm).1, if_true]
      rw [(digCh_facts _ hm).2.2.2.2.2.2.2]
      simp only [List.length_append, List.length_cons, List.length_nil]
      rw [pow_succ, ← mul_assoc]
      congr 1
      generalize acc * 10 ^ (natDigits (n / 10)).length = Q
      omega

theorem atoiDigits_stop (l : List Char) (acc : ℕ) (h : (l.headD ';').isDigit = false) :
    atoiDigits l acc = (acc, l) := by
  cases l with
  | nil => rfl
  | cons c cs => simp only [List.headD_cons] at h; simp [atoiDigits, h]

theorem atoiDigits_round (n : ℕ) (rest : List Char) (h : (rest.headD ';').isDigit = false) :
    atoiDigits (natDigits n ++ rest) 0 = (n, rest) := by
  rw [atoiDigits_natDigits, atoiDigits_stop _ _ h]
  simp

/-! ## C `atoi` / `atof` and Arduino float printing -/

/-- Whitespace skipped by C `atoi`/`atof` before the number. -/
def skipSp (l : List Char) : List Char := l.dropWhile isspaceC

/-- C `atoi` on the strings the firmware exchanges: skip whitespace, optional
sign, then a greedy digit run (0 if none). -/
def atoiZ (l : List Char) : ℤ :=
  match skipSp l with
  | [] => 0
  | c :: rest =>
    if c = '-' then -((atoiDigits rest 0).1 : ℤ)
    else if c = '+' then ((atoiDigits rest 0).1 : ℤ)
    else ((atoiDigits (c :: rest) 0).1 : ℤ)

/-- Unsigned part of C `atof`: integer digits, then an optional `.` and a
fraction digit run. -/
def atofPos (l : List Char) : ℚ :=
  let ip := (atoiDigits l 0).1
  let rest := (atoiDigits l 0).2
  match rest with
  | [] => (ip : ℚ)
  | c :: r2 =>
    if c = '.' then
      (ip : ℚ) + ((atoiDigits r2 0).1 : ℚ) / (10 : ℚ) ^ (r2.length - (atoiDigits r2 0).2.length)
    else (ip : ℚ)

/-- C `atof` on the strings the firmware exchanges. -/
def atofQ (l : List Char) : ℚ :=
  match skipSp l with
  | [] => 0
  | c :: rest =>
    if c = '-' then -(atofPos rest)
    else if c = '+' then atofPos rest
    else atofPos (c :: rest)

/-- The nonnegative number actually printed by Arduino `print(float, 2)`,
scaled by 100: round half-up to two decimal places. -/
def fmt2N (q : ℚ) : ℕ := (⌊q * 100 + 1 / 2⌋).toNat

/-- Arduino `print(float, 2)` for a nonnegative value: integer part, a dot,
and exactly two fraction digits. -/
def fmt2Pos (q : ℚ) : List Char :=
  natDigits (fmt2N q / 100) ++ '.' :: digCh (fmt2N q % 100 / 10) :: [digCh (fmt2N q % 10)]

/-- Arduino `print(float, 2)`: minus sign, then the magnitude. -/
def fmt2 (q : ℚ) : List Char := if q < 0 then '-' :: fmt2Pos (-q) else fmt2Pos q

/-- The rational value whose decimal expansion `fmt2 q` is: `q` rounded
half-up (in magnitude) to two decimal places. -/
def asPrinted (q : ℚ) : ℚ :=
  if q < 0 then -((fmt2N (-q) : ℚ) / 100) else (fmt2N q : ℚ) / 100

theorem skipSp_nospace (c : Char) (l : List Char) (h : isspaceC c = false) :
    skipSp (c :: l) = c :: l := by
  simp [skipSp, List.dropWhile_cons, h]

theorem atoiZ_natDigits (n : ℕ) (rest : List Char)
    (h : (rest.headD ';').isDigit = false) : atoiZ (natDigits n ++ rest) = n := by
  obtain ⟨d, t, hd, ht⟩ := natDigits_shape n
  have hstep : natDigits n ++ rest = digCh d :: (t ++ rest) := by simp [ht]
  have hsp : skipSp (natDigits n ++ rest) = digCh d :: (t ++ rest) := by
    rw [hstep]; exact skipSp_nospace _ _ (digCh_facts d hd).2.1
  simp only [atoiZ, hsp]
  rw [if_neg (digCh_facts d hd).2.2.1, if_neg (digCh_facts d hd).2.2.2.1, ← hstep,
    atoiDigits_round n rest h]

theorem atofPos_fmt2Pos (q : ℚ) (rest : List Char)
    (h : (rest.headD ';').isDigit = false) :
    atofPos (fmt2Pos q ++ rest) = (fmt2N q : ℚ) / 100 := by
  have h2 : (fmt2N q % 100 / 10) < 10 := by omega
  have h3 : (fmt2N q % 10) < 10 := by omega
  have hint : atoiDigits (fmt2Pos q ++ rest) 0 =
      (fmt2N q / 100, '.' :: digCh (fmt2N q % 100 / 10) :: [digCh (fmt2N q % 10)] ++ rest) := by
    simp only [fmt2Pos, List.append_assoc, List.cons_append, List.nil_append]
    exact atoiDigits_round _ _ (by simp [List.headD_cons])
  have hfrac : atoiDigits (digCh (fmt2N q % 100 / 10) :: digCh (fmt2N q % 10) :: rest) 0 =
      (fmt2N q % 100, rest) := by
    simp only [atoiDigits, (digCh_facts _ h2).1, (digCh_facts _ h3).1, if_true]
    rw [(digCh_facts _ h2).2.2.2.2.2.2.2, (digCh_facts _ h3).2.2.2.2.2.2.2,
      atoiDigits_stop _ _ h]
    congr 1
    omega
  simp only [atofPos, hint, List.cons_append, List.nil_append, if_pos rfl]
  rw [hfrac]
  have hlen : (digCh (fmt2N q % 100 / 10) :: digCh (fmt2N q % 10) :: rest).length - rest.length
      = 2 := by simp only [List.length_cons]; omega
  rw [hlen]
  have : ((fmt2N q : ℚ)) = ((fmt2N q / 100 * 100 + fmt2N q % 100 : ℕ) : ℚ) := by
    congr 1
    omega
  rw [this]
  push_cast
  ring

theorem fmt2Pos_head (q : ℚ) : ∃ d t, d < 10 ∧ fmt2Pos q = digCh d :: t := by
  obtain ⟨d, t, hd, ht⟩ := natDigits_shape (fmt2N q / 100)
  exact ⟨d, t ++ '.' :: digCh (fmt2N q % 100 / 10) :: [digCh (fmt2N q % 10)], hd,
    by simp [fmt2Pos, ht]⟩

/-- Parsing back the float just printed yields exactly the printed decimal. -/
theorem atofQ_fmt2 (q : ℚ) (rest : List Char)
    (h : (rest.headD ';').isDigit = false) :
    atofQ (fmt2 q ++ rest) = asPrinted q := by
  by_cases hq : q < 0
  · simp only [fmt2, asPrinted, hq, if_true, List.cons_append]
    have hsp : skipSp ('-' :: (fmt2Pos (-q) ++ rest)) = '-' :: (fmt2Pos (-q) ++ rest) :=
      skipSp_nospace _ _ (by decide)
    simp only [atofQ, hsp, if_pos rfl, if_true]
    rw [atofPos_fmt2Pos _ _ h]
  · simp only [fmt2, asPrinted, hq, if_false]
    obtain ⟨d, t, hd, ht⟩ := fmt2Pos_head q
    have hstep : fmt2Pos q ++ rest = digCh d :: (t ++ rest) := by simp [ht]
    have hsp : skipSp (fmt2Pos q ++ rest) = digCh d :: (t ++ rest) := by
      rw [hstep]; exact skipSp_nospace _ _ (digCh_facts d hd).2.1
    simp only [atofQ, hsp]
    rw [if_neg (digCh_facts d hd).2.2.1, if_neg (digCh_facts d hd).2.2.2.1, ← hstep,
      atofPos_fmt2Pos _ _ h]

/-- On a value that is exactly a multiple of a hundredth, the printed decimal
is the value itself. -/
theorem asPrinted_int_div (n : ℤ) : asPrinted ((n : ℚ) / 100) = (n : ℚ) / 100 := by
  have key : ∀ m : ℤ, 0 ≤ m → fmt2N ((m : ℚ) / 100) = m.toNat := by
    intro m hm
    have : ((m : ℚ) / 100) * 100 + 1 / 2 = (m : ℚ) + 1 / 2 := by field_simp
    rw [fmt2N, this]
    have hfl : ⌊(m : ℚ) + 1 / 2⌋ = m := by
      rw [add_comm, Int.floor_add_int]
      norm_num
    rw [hfl]
  by_cases hn : (n : ℚ) / 100 < 0
  · have hneg : n < 0 := by
      by_contra hc
      push_neg at hc
      have hc2 : (0 : ℚ) ≤ (n : ℚ) := by exact_mod_cast hc
      have : (0 : ℚ) ≤ (n : ℚ) / 100 := div_nonneg hc2 (by norm_num)
      linarith
    have hneg2 : (0 : ℤ) ≤ -n := by omega
    rw [asPrinted, if_pos hn]
    have hcast : -((n : ℚ) / 100) = ((-n : ℤ) : ℚ) / 100 := by push_cast; ring
    rw [hcast, key (-n) hneg2]
    have hq : (((-n).toNat : ℚ)) = ((-n : ℤ) : ℚ) := by
      exact_mod_cast Int.toNat_of_nonneg hneg2
    rw [hq]
    push_cast
    ring
  · have hpos : 0 ≤ n := by
      by_contra hc
      push_neg at hc
      have : (n : ℚ) / 100 < 0 := by
        apply div_neg_of_neg_of_pos
        · exact_mod_cast hc
        · norm_num
      exact hn this
    rw [asPrinted, if_neg hn, key n hpos]
    have hq : ((n.toNat : ℚ)) = ((n : ℤ) : ℚ) := by
      exact_mod_cast Int.toNat_of_nonneg hpos
    rw [hq]

/-! ## Master controller: data model and response parser

Embedded from the master sketch: `MODULES`, the per-module telemetry
struct `mod_st`, `next_value`, `parse`, the 10-second HWC thermal check in
`loop`, and the CapLow auto-recovery loop in `loop`. -/

/-- `MODULES` in the master sketch. -/
def MODULES : ℕ := 4

/-- One slot of the master's `mod_st[]` table. -/
structure ModRecord where
  v : ℚ
  a : ℚ
  w : ℚ
  c : ℚ
  pwm : ℤ
  temp : ℚ
  fan : ℤ
  state : ℤ
  error : ℤ
  last_tx : ℕ
  last_reset : ℕ
  deriving DecidableEq

/-- A zero-initialized `mod_st` slot (master globals are zeroed at boot). -/
def rec0 : ModRecord := ⟨0, 0, 0, 0, 0, 0, 0, 0, 0, 0, 0⟩

/-- Apply `f` to the `i`-th entry of the table (C array write `mod_st[i]`). -/
def modAt : List ModRecord → ℕ → (ModRecord → ModRecord) → List ModRecord
  | [], _, _ => []
  | r :: rs, 0, f => f r :: rs
  | r :: rs, n + 1, f => r :: modAt rs n f

/-- `next_value` from the master sketch: advance past the next `;`,
`none` when the string ends first. -/
def next_value : List Char → Option (List Char)
  | [] => none
  | c :: rest => if c = ';' then some rest else next_value rest

/-- The `e` message payload handler of `parse()`: one more field (the error
code) after the id. -/
def parseE (p0 : List Char) (module : ℤ) (tbl : List ModRecord) : ℤ × List ModRecord :=
  match next_value p0 with
  | none => (-1, tbl)
  | some p => (module, modAt tbl module.toNat (fun r => { r with error := atoiZ p }))

/-- The `i` message payload handler of `parse()`: the eight fields after the
id, each stored the moment it is extracted, any missing field aborting with
-1. -/
def parseI (p0 : List Char) (module : ℤ) (tbl : List ModRecord) : ℤ × List ModRecord :=
  match next_value p0 with
  | none => (-1, tbl)
  | some p =>
    let tbl := modAt tbl module.toNat (fun r => { r with state := atoiZ p })
    match next_value p with
    | none => (-1, tbl)
    | some p =>
      let tbl := modAt tbl module.toNat (fun r => { r with pwm := atoiZ p })
      match next_value p with
      | none => (-1, tbl)
      | some p =>
        let tbl := modAt tbl module.toNat (fun r => { r with v := atofQ p })
        match next_value p with
        | none => (-1, tbl)
        | some p =>
          let tbl := modAt tbl module.toNat (fun r => { r with a := atofQ p })
          match next_value p with
          | none => (-1, tbl)
          | some p =>
            let tbl := modAt tbl module.toNat (fun r => { r with w := atofQ p })
            match next_value p with
            | none => (-1, tbl)
            | some p =>
              let tbl := modAt tbl module.toNat (fun r => { r with c := atofQ p })
              match next_value p with
              | none => (-1, tbl)
              | some p =>
                let tbl := modAt tbl module.toNat (fun r => { r with temp := atofQ p })
                match next_value p with
                | none => (-1, tbl)
                | some p =>
                  (module, modAt tbl module.toNat (fun r => { r with fan := atoiZ p }))

/-- `parse()` from the master sketch.  Takes the assembled line and the
current `mod_st` table; returns the parse result (module id, or -1 on
error) together with the table as left by the call.  Field stores happen
exactly where the C code performs them, interleaved with the
`next_value` checks. -/
def parse (line : List Char) (tbl : List ModRecord) : ℤ × List ModRecord :=
  if line.length < 3 then (-1, tbl)
  else if line.headD ' ' = 'e' then
    let module := atoiZ (line.drop 2)
    if module < 0 ∨ MODULES ≤ module then (-1, tbl)
    else parseE (line.drop 2) module tbl
  else if line.headD ' ' = 'i' then
    let module := atoiZ (line.drop 2)
    if module < 0 ∨ MODULES ≤ module then (-1, tbl)
    else parseI (line.drop 2) module tbl
  else (-1, tbl)

/-- Bytes of one `Serial.print(x); Serial.println(";")` command send by the
master (`println` appends CR LF). -/
def cmdBytes (code : Char) (idArg : ℕ) : List Char :=
  code :: natDigits idArg ++ ';' :: '\r' :: ['\n']

/-- The halt loop of the master's 10-second thermal check (the body of
`for (i...) if (mod_st[i].state != 5) { print 'h'; print (mod_display); ... }`).
Note it prints `mod_display`, not the loop index. -/
def haltNotHalted (mod_display : ℕ) (tbl : List ModRecord) : List Char :=
  (tbl.map (fun r => if r.state ≠ 5 then cmdBytes 'h' mod_display else [])).flatten

/-- The master's 10-second thermal check (serial output and the two mains
waveform tables; LCD output omitted).  `hwc_temp` is the retried sensor
reading. -/
def thermalCheck (hwc_temp : ℚ) (mod_display : ℕ) (tbl : List ModRecord)
    (mpos mneg : List ℕ) : List Char × List ℕ × List ℕ :=
  if hwc_temp < -10 ∨ hwc_temp > 75 then
    (haltNotHalted mod_display tbl,
      if hwc_temp > 80 then (mpos.map (fun _ => 0), mneg.map (fun _ => 0))
      else (mpos, mneg))
  else ([], mpos, mneg)

/-- Body of the master's CapLow auto-recovery loop for one module slot:
send `r<i>;` and clear the cached error when the heuristic fires. -/
def autoResetOne (now : ℕ) (i : ℕ) (r : ModRecord) : List Char × ModRecord :=
  if r.error = 5 ∧ r.v > 50 ∧ now > r.last_reset + 10000 then
    (cmdBytes 'r' i, { r with error := 0, last_reset := now })
  else ([], r)

/-- The master's CapLow auto-recovery loop over the whole table. -/
def autoResetAux (now : ℕ) : ℕ → List ModRecord → List Char × List ModRecord
  | _, [] => ([], [])
  | i, r :: rs =>
    let p := autoResetOne now i r
    let ps := autoResetAux now (i + 1) rs
    (p.1 ++ ps.1, p.2 :: ps.2)

/-- `for (i = 0; i < MODULES; i++) ...` auto-recovery pass of the master. -/
def autoResetStep (now : ℕ) (tbl : List ModRecord) : List Char × List ModRecord :=
  autoResetAux now 0 tbl

theorem next_value_append (x : List Char) (r : List Char) (h : ';' ∉ x) :
    next_value (x ++ ';' :: r) = some r := by
  induction x with
  | nil => simp [next_value]
  | cons c cs ih =>
    have hc : c ≠ ';' := by intro hc; exact h (by simp [hc])
    have hcs : ';' ∉ cs := by intro hm; exact h (by simp [hm])
    rw [List.cons_append]
    simp only [next_value, if_neg hc]
    exact ih hcs

theorem next_value_none (x : List Char) (h : ';' ∉ x) : next_value x = none := by
  induction x with
  | nil => rfl
  | cons c cs ih =>
    have hc : c ≠ ';' := by intro hc; exact h (by simp [hc])
    have hcs : ';' ∉ cs := by intro hm; exact h (by simp [hm])
    simp only [next_value, if_neg hc]
    exact ih hcs

theorem modAt_get_self (tbl : List ModRecord) (i : ℕ) (f : ModRecord → ModRecord) :
    (modAt tbl i f).get? i = (tbl.get? i).map f := by
  induction tbl generalizing i with
  | nil => cases i <;> rfl
  | cons r rs ih =>
    cases i with
    | zero => rfl
    | succ n => simpa [modAt] using ih n

theorem modAt_get_ne (tbl : List ModRecord) (i j : ℕ) (f : ModRecord → ModRecord)
    (h : j ≠ i) : (modAt tbl i f).get? j = tbl.get? j := by
  induction tbl generalizing i j with
  | nil => cases i <;> rfl
  | cons r rs ih =>
    cases i with
    | zero =>
      cases j with
      | zero => omega
      | succ m => rfl
    | succ n =>
      cases j with
      | zero => rfl
      | succ m => simpa [modAt] using ih n m (by omega)

/-! ## Inverter module firmware (`inverter_module_2.ino`)

Embedded from the module sketch: the mutable globals and static locals of
`loop()` (`state`, `pwm`, `error_code`, `max_power`, `direction`,
`last_power`, `temperature`, the timeout timestamps, the EEPROM cells and
the digital output lines), the serial command dispatch, the finite state
machine, the safety interlocks, and the final `OCR1B` compare-register
write.  Pin writes are booleans (`true` = driven high); `fault_led` is
`true` when the active-low SYS-FAULT line is asserted (driven low). -/

/-- `MAX_POWER` (hard power limit, Watts). -/
def MAX_POWER : ℕ := 425

/-- `MIN_MAX_POWER` (lowest settable power limit, Watts). -/
def MIN_MAX_POWER : ℕ := 50

/-- `TOP` (the OCR1A value; PWM period top). -/
def TOP : ℕ := 325

/-- The module's mutable state: globals of the sketch plus the `static`
locals of `loop()`.  `eeLog` records every `EEPROM.write(addr, val)` call,
newest first; `ee_max`/`ee_halted` mirror the two EEPROM cells. -/
structure ModuleSt where
  state : ℕ
  pwm : ℕ
  error_code : ℕ
  max_power : ℕ
  ee_max : ℕ
  ee_halted : ℕ
  eeLog : List (ℕ × ℕ)
  enable : Bool
  output_relay : Bool
  fault_led : Bool
  ocr1b : ℕ
  timeout_pause : ℕ
  timeout_temp : ℕ
  temperature : ℚ
  fan_drive : Bool
  flag_over : Bool
  direction : ℤ
  last_power : ℚ
  deriving DecidableEq

/-- The values sensed in one `loop()` iteration (the analog reads, the fan
tachometer, the temperature sensor, and `millis()`). -/
structure Inputs where
  voltage : ℚ
  current : ℚ
  cap_voltage : ℚ
  temp_sensor : ℚ
  fan : ℕ
  now : ℕ
  deriving DecidableEq

/-- A concrete quiescent module state (used to instantiate theorems). -/
def m0 : ModuleSt :=
  ⟨0, 0, 0, 0, 0, 0, [], false, false, false, 0, 0, 0, 25, false, false, -1, 0⟩

/-- Concrete nominal sensor inputs (used to instantiate theorems). -/
def inp0 : Inputs := ⟨20, 1, 100, 25, 0, 5000⟩

/-- The MPPT apply step of state S3 (lines 796-805 of the sketch):

    if (direction < 0) { if (pwm+direction > 20) pwm += direction; }
    else               { if (pwm+direction < 315) pwm += direction; }

`pwm` is a 16-bit unsigned and `direction` an `int`, so `pwm + direction`
is computed modulo 2^16 and compared as an unsigned value. -/
def s3_apply (pwm : ℕ) (direction : ℤ) : ℕ :=
  let sum := (((pwm : ℤ) + direction) % 65536).toNat
  if direction < 0 then (if 20 < sum then sum else pwm)
  else (if sum < 315 then sum else pwm)

/-- The module's `i` command response: the info line
`i;id;state;pwm;voltage;current;power;cap_voltage;temperature;fan_speed`
(without the trailing CR LF). -/
def infoLineBody (idv : ℕ) (m : ModuleSt) (inp : Inputs) : List Char :=
  'i' :: ';' :: (natDigits idv ++ ';' :: natDigits m.state ++ ';' :: natDigits m.pwm
    ++ ';' :: fmt2 inp.voltage ++ ';' :: fmt2 inp.current
    ++ ';' :: fmt2 (inp.voltage * inp.current)
    ++ ';' :: fmt2 inp.cap_voltage ++ ';' :: fmt2 m.temperature
    ++ ';' :: natDigits inp.fan)

/-- The module's error status response `e;id;error_code;` (without CR LF). -/
def errLineBody (idv : ℕ) (m : ModuleSt) : List Char :=
  'e' :: ';' :: (natDigits idv ++ ';' :: natDigits m.error_code ++ [';'])

/-- The `i` command: the full response bytes (info line, CR LF, error line,
CR LF); the state is untouched. -/
def iCmdResp (idv : ℕ) (m : ModuleSt) (inp : Inputs) : List Char :=
  infoLineBody idv m inp ++ '\r' :: '\n' :: errLineBody idv m ++ ['\r', '\n']

/-- The `h` (halt) command: dump energy (`OCR1B = 0`, settle, drive and
relay low), persist the halted latch when not already in S5, then S5 with
duty 0. -/
def hCmd (m : ModuleSt) : ModuleSt :=
  let m1 := { m with ocr1b := 0, enable := false, output_relay := false }
  let m2 := if m1.state ≠ 5 then
      { m1 with ee_halted := 1, eeLog := (1, 1) :: m1.eeLog } else m1
  { m2 with state := 5, pwm := 0 }

/-- The `s` (start) command: clear the persisted halted latch if set, go to
S0 with duty 0, restart the S0 dwell timer, clear the error code. -/
def sCmd (inp : Inputs) (m : ModuleSt) : ModuleSt :=
  let m1 := if m.ee_halted ≠ 0 then
      { m with ee_halted := 0, eeLog := (1, 0) :: m.eeLog } else m
  { m1 with state := 0, pwm := 0, timeout_pause := inp.now, error_code := 0 }

/-- The `r` (reset) command: the halt shutdown sequence, then re-derive the
state from the persisted latch, duty 0, dwell timer restart, error clear. -/
def rCmd (inp : Inputs) (m : ModuleSt) : ModuleSt :=
  let m1 := { m with ocr1b := 0, enable := false, output_relay := false }
  let m2 := if m1.ee_halted ≠ 0 then { m1 with state := 5 } else { m1 with state := 0 }
  { m2 with pwm := 0, timeout_pause := inp.now, error_code := 0 }

/-- The `p` (set power limit) command: `mp = atoi(cli+3)` as a 16-bit
unsigned; accept only within `[MIN_MAX_POWER, MAX_POWER]`, persist (halved)
only when different from the current limit. -/
def pCmd (cli : List Char) (m : ModuleSt) : ModuleSt :=
  let mp := ((atoiZ (cli.drop 3)) % 65536).toNat
  if MIN_MAX_POWER ≤ mp ∧ mp ≤ MAX_POWER then
    if mp ≠ m.max_power then
      { m with max_power := mp, ee_max := mp / 2, eeLog := (0, mp / 2) :: m.eeLog }
    else m
  else m

/-- Dispatch of one complete command line (the body of the serial intake
loop once a terminator arrives, lines 531-677 of the sketch).  `cli` is the
buffer content before the terminator; the line is acted on only when it is
longer than one character and its id field equals this module's id.
Returns the new state and the bytes written to the serial port. -/
def execCmd (idv : ℕ) (m : ModuleSt) (inp : Inputs) (cli : List Char) :
    ModuleSt × List Char :=
  if 1 < cli.length ∧ atoiZ (cli.drop 1) = (idv : ℤ) then
    match cli with
    | [] => (m, [])
    | c :: _ =>
      if c = 'i' then (m, iCmdResp idv m inp)
      else if c = 'h' then (hCmd m, [])
      else if c = 's' then (sCmd inp m, [])
      else if c = 'r' then (rCmd inp m, [])
      else if c = 'p' then (pCmd cli m, [])
      else (m, [])
  else (m, [])

/-- Process a list of complete command lines in order, concatenating the
responses. -/
def execLines (idv : ℕ) (inp : Inputs) : ModuleSt → List (List Char) → ModuleSt × List Char
  | m, [] => (m, [])
  | m, l :: ls =>
    let p := execCmd idv m inp l
    let ps := execLines idv inp p.1 ls
    (ps.1, p.2 ++ ps.2)

/-- The 10-second temperature poll and fan hysteresis at the top of
`loop()`. -/
def tempFanStep (m : ModuleSt) (inp : Inputs) : ModuleSt :=
  if inp.now > m.timeout_temp + 10000 then
    let t := inp.temp_sensor
    let m1 := { m with temperature := t }
    let m2 := if t > 40 then { m1 with fan_drive := true }
      else if t < 35 then { m1 with fan_drive := false } else m1
    { m2 with timeout_temp := inp.now }
  else m

/-- S2: the under-voltage backoff check (first `if` of `case S2`). -/
def s2UnderVolt (inp : Inputs) (m : ModuleSt) : ModuleSt :=
  if inp.voltage < 15 then
    { m with enable := false, timeout_pause := inp.now, pwm := 0, state := 0 } else m

/-- S2: the over-voltage-flag/relay check (second `if` of `case S2`). -/
def s2OverFlag (inp : Inputs) (m : ModuleSt) : ModuleSt :=
  if m.flag_over ∧ inp.cap_voltage > 320 then
    { m with output_relay := true, state := 3, flag_over := false } else m

/-- S2: the duty ramp (slow up while voltage is good, 5 steps down when it
sags). -/
def s2Ramp (inp : Inputs) (m : ModuleSt) : ModuleSt :=
  if m.pwm < 275 ∧ inp.voltage > 18 then { m with pwm := m.pwm + 1 }
  else if 5 ≤ m.pwm ∧ inp.voltage < 18 then { m with pwm := m.pwm - 5 }
  else m

/-- S3: the under-voltage shutdown check (first `if` of `case S3`; the
source then falls through into the MPPT code with no `break`). -/
def s3UnderVolt (inp : Inputs) (m : ModuleSt) : ModuleSt :=
  if inp.voltage < 15 then
    { m with enable := false, output_relay := false, timeout_pause := inp.now, state := 0, pwm := 0 }
  else m

/-- S3: perturb-and-observe direction choice (anti-plateau override, wrong
direction flip, power-limit clamp, zero floor), `last_power` update and the
apply step. -/
def s3Mppt (inp : Inputs) (m : ModuleSt) : ModuleSt :=
  let power := inp.voltage * inp.current
  let d1 : ℤ := if inp.voltage > 50 ∧ inp.current < 1 / 2 then 1
    else (if power < m.last_power then -m.direction else m.direction)
  let d2 : ℤ := if power > (m.max_power : ℚ) ∨ power > (MAX_POWER : ℚ) then -1 else d1
  let d3 : ℤ := if m.pwm = 0 then 1 else d2
  { m with direction := d3, last_power := power, pwm := s3_apply m.pwm d3 }

/-- The finite state machine switch of `loop()` (lines 688-816).  Inside
S2 and S3 the source performs its checks in sequence on the mutated
variables with no `break` between them, which is modelled by composing the
stage functions. -/
def fsmStep (m : ModuleSt) (inp : Inputs) : ModuleSt :=
  if m.state = 0 then
    (if inp.now > m.timeout_pause + 3000 then { m with state := 1 } else m)
  else if m.state = 1 then
    (if inp.voltage > 18 then { m with enable := true, state := 2, pwm := 0 } else m)
  else if m.state = 2 then s2Ramp inp (s2OverFlag inp (s2UnderVolt inp m))
  else if m.state = 3 then s3Mppt inp (s3UnderVolt inp m)
  else m

/-- One interlock shutdown: disable drive and relay, fault state S4, clear
duty, record the error code. -/
def shutdown4 (m : ModuleSt) (e : ℕ) : ModuleSt :=
  { m with enable := false, output_relay := false, state := 4, pwm := 0, error_code := e }

/-- Interlock: capacitor sense reading below 12V (CapLow, code 5). -/
def capLowChk (inp : Inputs) (m : ModuleSt) : ModuleSt :=
  if m.state ≠ 4 ∧ inp.cap_voltage < 12 then shutdown4 m 5 else m

/-- Interlock: capacitor voltage above 370V (CapHigh, code 6). -/
def capHighChk (inp : Inputs) (m : ModuleSt) : ModuleSt :=
  if m.state ≠ 4 ∧ inp.cap_voltage > 370 then shutdown4 m 6 else m

/-- Interlock: the S2 shorted-transformer signature — very low duty with
current above 2A (OverCurrent, code 4). -/
def overCurChk (inp : Inputs) (m : ModuleSt) : ModuleSt :=
  if m.state = 2 ∧ 1 < m.pwm ∧ m.pwm < 5 ∧ inp.current > 2 then shutdown4 m 4 else m

/-- Interlock: negative current reading, a broken sensor (UnderCurrent,
code 3). -/
def negCurChk (inp : Inputs) (m : ModuleSt) : ModuleSt :=
  if m.state ≠ 4 ∧ inp.current < -(1 / 10) then shutdown4 m 3 else m

/-- Interlock: over-temperature (OverTemp, code 2). -/
def overTempChk (m : ModuleSt) : ModuleSt :=
  if m.state ≠ 4 ∧ m.temperature > 85 then shutdown4 m 2 else m

/-- Interlock: under-temperature or disconnected sensor (UnderTemp,
code 1). -/
def underTempChk (m : ModuleSt) : ModuleSt :=
  if m.state ≠ 4 ∧ m.temperature < -30 then shutdown4 m 1 else m

/-- The SYS-FAULT LED refresh: asserted exactly in state S4. -/
def faultLedSet (m : ModuleSt) : ModuleSt :=
  { m with fault_led := if m.state = 4 then true else false }

/-- The safety interlock passes after the state machine (lines 830-943):
cap voltage low/high, the S2 over-current signature, negative current,
over/under temperature, then the fault LED refresh, in source order. -/
def interlocks (m : ModuleSt) (inp : Inputs) : ModuleSt :=
  faultLedSet (underTempChk (overTempChk (negCurChk inp
    (overCurChk inp (capHighChk inp (capLowChk inp m))))))

/-- The final compare-register write: `if (pwm != OCR1B) OCR1B = pwm;`. -/
def writeOcr (m : ModuleSt) : ModuleSt :=
  if m.pwm ≠ m.ocr1b then { m with ocr1b := m.pwm } else m

/-- One whole `loop()` iteration: temperature/fan poll, serial command
processing of the complete lines received this iteration, the state
machine, the interlocks, and the compare-register write. -/
def loopStep (idv : ℕ) (m : ModuleSt) (inp : Inputs) (lines : List (List Char)) :
    ModuleSt × List Char :=
  let mA := tempFanStep m inp
  let p := execLines idv inp mA lines
  let mB := fsmStep p.1 inp
  let mC := interlocks mB inp
  (writeOcr mC, p.2)

/-! ## C3: the S3 MPPT apply step -/

/-- C3 (counterexample): the claim says that for all `20 < d < 315` a
`direction=+1` step takes duty from `d` to `d+1`; at `d = 314` (inside that
range) the source rejects the move (`pwm+direction < 315` fails) and leaves
duty at 314. -/
theorem s3_apply_claim_false_at_314 :
    (20 < 314 ∧ 314 < 315) ∧ s3_apply 314 1 = 314 ∧ s3_apply 314 1 ≠ 314 + 1 := by
  decide

/-- C3 (amended): for `21 < d < 314` a `+1` step yields `d+1` and a `-1`
step yields `d-1`; the `+1` move is rejected (duty unchanged) at `d = 314`
and the `-1` move is rejected at `d = 21`, while `+1` from 20 still yields
21 and `-1` from 315 still yields 314. -/
theorem s3_apply_step (d : ℕ) :
    (21 < d → d < 314 → s3_apply d 1 = d + 1 ∧ s3_apply d (-1) = d - 1) ∧
    s3_apply 314 1 = 314 ∧ s3_apply 21 (-1) = 21 ∧
    s3_apply 20 1 = 21 ∧ s3_apply 315 (-1) = 314 := by
  refine ⟨?_, by decide, by decide, by decide, by decide⟩
  intro h1 h2
  have m1 : ((d : ℤ) + 1) % 65536 = (d : ℤ) + 1 :=
    Int.emod_eq_of_lt (by omega) (by omega)
  have m2 : ((d : ℤ) + (-1)) % 65536 = (d : ℤ) + (-1) :=
    Int.emod_eq_of_lt (by omega) (by omega)
  have e1 : ((((d : ℤ) + 1) % 65536).toNat) = d + 1 := by rw [m1]; omega
  have e2 : ((((d : ℤ) + (-1)) % 65536).toNat) = d - 1 := by rw [m2]; omega
  constructor
  · simp only [s3_apply, e1]
    rw [if_neg (by omega : ¬(1 : ℤ) < 0), if_pos (by omega)]
  · simp only [s3_apply, e2]
    rw [if_pos (by omega : (-1 : ℤ) < 0), if_pos (by omega)]

/-- C3 (witness): the amended step theorem applied at `d = 100`. -/
theorem s3_apply_step_witness :
    (21 < 100 ∧ 100 < 314) ∧ s3_apply 100 1 = 100 + 1 ∧ s3_apply 100 (-1) = 100 - 1 :=
  ⟨by decide, (s3_apply_step 100).1 (by decide) (by decide)⟩

/-! ## C4: the S2 over-current interlock -/

/-- A module in S2 at very low duty (the claim uses duty 3, current 2.5A;
any current above 2A triggers the check). -/
def c4m : ModuleSt := { m0 with state := 2, pwm := 3 }

/-- Inputs with over-current in S2 while the capacitor sense line is dead
(reads 5V): the CapLow interlock runs first. -/
def c4bad : Inputs := { inp0 with current := 3, cap_voltage := 5 }

/-- C4 (counterexample): with state S2, duty 3 and current 3A > 2A but a
capacitor reading below 12V, the interlock pass ends in S4 with error
CapLow (5), not OverCurrent (4): the earlier capacitor interlock wins. -/
theorem interlocks_overcurrent_claim_false :
    c4m.state = 2 ∧ 1 < c4m.pwm ∧ c4m.pwm < 5 ∧ c4bad.current > 2 ∧
    (interlocks c4m c4bad).state = 4 ∧
    (interlocks c4m c4bad).error_code = 5 ∧
    (interlocks c4m c4bad).error_code ≠ 4 := by
  decide

/-- C4 (amended): in S2 with `1 < duty < 5` and current above 2A, provided
the capacitor interlocks do not fire first (reading within [12V, 370V]),
the interlock pass ends the iteration in S4 with error OverCurrent (4),
duty 0, and both the drive and the output relay driven low. -/
theorem interlocks_overcurrent (m : ModuleSt) (inp : Inputs)
    (hs : m.state = 2) (h1 : 1 < m.pwm) (h2 : m.pwm < 5) (hc : inp.current > 2)
    (hcap1 : 12 ≤ inp.cap_voltage) (hcap2 : inp.cap_voltage ≤ 370) :
    (interlocks m inp).state = 4 ∧ (interlocks m inp).error_code = 4 ∧
    (interlocks m inp).pwm = 0 ∧ (interlocks m inp).enable = false ∧
    (interlocks m inp).output_relay = false := by
  have hn1 : ¬(m.state ≠ 4 ∧ inp.cap_voltage < 12) := by
    rintro ⟨-, h⟩; exact absurd h (not_lt.2 hcap1)
  have hn2 : ¬(m.state ≠ 4 ∧ inp.cap_voltage > 370) := by
    rintro ⟨-, h⟩; exact absurd h (not_lt.2 hcap2)
  have e1 : capLowChk inp m = m := if_neg hn1
  have e2 : capHighChk inp m = m := if_neg hn2
  have e3 : overCurChk inp m = shutdown4 m 4 := if_pos ⟨hs, h1, h2, hc⟩
  simp only [interlocks, e1, e2, e3]
  simp [negCurChk, overTempChk, underTempChk, faultLedSet, shutdown4]

/-- C4 (witness): the amended over-current theorem at state S2, duty 3,
current 3A, capacitor 100V. -/
theorem interlocks_overcurrent_witness :
    (c4m.state = 2 ∧ 1 < c4m.pwm ∧ c4m.pwm < 5 ∧
      ({ inp0 with current := 3 } : Inputs).current > 2 ∧
      12 ≤ ({ inp0 with current := 3 } : Inputs).cap_voltage ∧
      ({ inp0 with current := 3 } : Inputs).cap_voltage ≤ 370) ∧
    ((interlocks c4m { inp0 with current := 3 }).state = 4 ∧
      (interlocks c4m { inp0 with current := 3 }).error_code = 4 ∧
      (interlocks c4m { inp0 with current := 3 }).pwm = 0 ∧
      (interlocks c4m { inp0 with current := 3 }).enable = false ∧
      (interlocks c4m { inp0 with current := 3 }).output_relay = false) :=
  ⟨by decide,
    interlocks_overcurrent c4m { inp0 with current := 3 } (by decide) (by decide)
      (by decide) (by decide) (by decide) (by decide)⟩

/-! ## C1: the master's thermal halt pass -/

/-- The `mains_pos` waveform table of the master sketch. -/
def mains_pos0 : List ℕ :=
  [1, 1, 1, 1, 1, 1, 1, 1, 0, 0, 0, 0, 0, 0, 0, 0, 0, 0, 0, 0, 0, 0, 0, 0, 0, 0, 0, 0, 0, 0]

/-- The `mains_neg` waveform table of the master sketch. -/
def mains_neg0 : List ℕ :=
  [0, 0, 0, 0, 0, 0, 0, 0, 0, 0, 0, 0, 0, 0, 0, 1, 1, 1, 1, 1, 1, 1, 1, 0, 0, 0, 0, 0, 0, 0]

/-- Telemetry table in which module 0 is halted (state 5) and modules 1-3
are running (state 0). -/
def c1tbl : List ModRecord :=
  [{ rec0 with state := 5 }, rec0, rec0, rec0]

/-- C1 (code bug, evaluated at the failing input): HWC temperature 81C is
above `EXTREME_HWC_TEMP`; module 0 is halted, modules 1-3 are not, and the
display shows module 0.  The source loops over the non-halted modules but
prints `mod_display` instead of the loop index, so it emits `h0;` three
times — three halt commands all addressed to the halted module 0 and none
to modules 1, 2, 3 — instead of `h1; h2; h3;`.  The extreme-temperature
waveform-table zeroing of the claim does happen. -/
theorem thermal_halt_misaddressed :
    (thermalCheck 81 0 c1tbl mains_pos0 mains_neg0).1 =
      cmdBytes 'h' 0 ++ cmdBytes 'h' 0 ++ cmdBytes 'h' 0 ∧
    (thermalCheck 81 0 c1tbl mains_pos0 mains_neg0).1 ≠
      cmdBytes 'h' 1 ++ cmdBytes 'h' 2 ++ cmdBytes 'h' 3 ∧
    (thermalCheck 81 0 c1tbl mains_pos0 mains_neg0).2.1 = List.replicate 30 0 ∧
    (thermalCheck 81 0 c1tbl mains_pos0 mains_neg0).2.2 = List.replicate 30 0 := by
  decide

/-! ## C5: the master's CapLow auto-recovery heuristic -/

/-- A slot whose cached error is CapLow (5) with healthy cached voltage
(55V) and a previous reset attempt recorded at 5000ms. -/
def c5rec : ModRecord := { rec0 with error := 5, v := 55, last_reset := 5000 }

/-- Table with the CapLow pattern on module 2 only. -/
def c5tbl : List ModRecord := [rec0, rec0, c5rec, rec0]

/-- C5 (counterexample): at `millis() = 15000` exactly 10000ms have elapsed
since module 2's last reset attempt, its cached error is CapLow and its
cached voltage exceeds 50V — the claim ("exactly when ... at least
10000 ms have elapsed") demands a Reset send, but the source condition is
`millis() > last_reset + 10000`, strictly greater, so nothing is sent and
the table is untouched. -/
theorem autoReset_at_exactly_10000 :
    c5rec.error = 5 ∧ c5rec.v > 50 ∧ 15000 - c5rec.last_reset = 10000 ∧
    (autoResetStep 15000 c5tbl).1 = [] ∧ (autoResetStep 15000 c5tbl).2 = c5tbl := by
  decide

/-- C5 (amended): for every module slot, the auto-recovery body sends
`r<i>;` exactly when the cached error is CapLow (5), the cached voltage
exceeds 50.0 and strictly more than 10000ms have elapsed since the last
recorded attempt; on sending it clears the cached error and records the
attempt time, so no further Reset is emitted for that module within the
next 10000ms (in particular within the next 9999ms) even if the CapLow
error is reported again. -/
theorem autoReset_exact (now i : ℕ) (r : ModRecord) :
    (r.error = 5 ∧ r.v > 50 ∧ now > r.last_reset + 10000 →
      autoResetOne now i r = (cmdBytes 'r' i, { r with error := 0, last_reset := now })) ∧
    (¬(r.error = 5 ∧ r.v > 50 ∧ now > r.last_reset + 10000) →
      autoResetOne now i r = ([], r)) ∧
    (∀ now2 e2, now2 ≤ now + 10000 →
      (autoResetOne now2 i { r with error := e2, last_reset := now }).1 = []) := by
  refine ⟨fun h => if_pos h, fun h => if_neg h, fun now2 e2 h2 => ?_⟩
  have hn : ¬(({ r with error := e2, last_reset := now } : ModRecord).error = 5 ∧
      ({ r with error := e2, last_reset := now } : ModRecord).v > 50 ∧
      now2 > ({ r with error := e2, last_reset := now } : ModRecord).last_reset + 10000) := by
    rintro ⟨-, -, h3⟩
    simp only at h3
    omega
  rw [autoResetOne, if_neg hn]

/-- C5 (witness): the amended heuristic at module 2, 10001ms after a reset
attempt recorded at time 0. -/
theorem autoReset_exact_witness :
    (c5rec.error = 5 ∧ c5rec.v > 50 ∧ 15001 > c5rec.last_reset + 10000) ∧
    autoResetOne 15001 2 c5rec = (cmdBytes 'r' 2, { c5rec with error := 0, last_reset := 15001 }) :=
  ⟨by decide, (autoReset_exact 15001 2 c5rec).1 (by decide)⟩

/-! ## C2: failed master parses and partial updates -/

/-- A zeroed telemetry table (master boot state). -/
def tbl0 : List ModRecord := [rec0, rec0, rec0, rec0]

/-- C2 (counterexample): the line `i;0;9` carries an id and a state field
but stops there; `parse` returns -1 (the `next_value` looking for the pwm
field fails) yet module 0's state has already been overwritten with 9 —
the telemetry table is not left unchanged. -/
theorem parse_partial_update :
    (parse ['i', ';', '0', ';', '9'] tbl0).1 = -1 ∧
    ((parse ['i', ';', '0', ';', '9'] tbl0).2.map fun r => r.state) = [9, 0, 0, 0] ∧
    (tbl0.map fun r => r.state) = [0, 0, 0, 0] := by
  decide

/-! ## Module command dispatch lemmas, C7, C8, C9 -/

theorem atoiZ_natDigits_nil (n : ℕ) : atoiZ (natDigits n) = n := by
  have h := atoiZ_natDigits n [] (by decide)
  simpa using h

theorem natDigits_ne_nil (n : ℕ) : natDigits n ≠ [] := by
  obtain ⟨d, t, -, ht⟩ := natDigits_shape n
  simp [ht]

/-- A line whose id field parses to this module's id is dispatched on its
first character. -/
theorem execCmd_dispatch (idv : ℕ) (m : ModuleSt) (inp : Inputs) (c : Char)
    (rest : List Char) (hg : atoiZ rest = (idv : ℤ)) (hr : rest ≠ []) :
    execCmd idv m inp (c :: rest) =
      (if c = 'i' then (m, iCmdResp idv m inp)
       else if c = 'h' then (hCmd m, [])
       else if c = 's' then (sCmd inp m, [])
       else if c = 'r' then (rCmd inp m, [])
       else if c = 'p' then (pCmd (c :: rest) m, [])
       else (m, [])) := by
  have hlen : 1 < (c :: rest).length := by
    cases rest with
    | nil => exact absurd rfl hr
    | cons a as => simp
  have hdrop : (c :: rest).drop 1 = rest := rfl
  simp only [execCmd, hdrop]
  rw [if_pos ⟨hlen, hg⟩]

/-- C7: processing `h<id>;` is idempotent in its end state.  One halt
command leaves the module in S5 with duty 0 and drive and relay low; the
halted latch (EEPROM cell 1) is written — value 1 appended to the write
log — exactly when the module was not already in S5; a second identical
command produces literally the same state (in particular no further
EEPROM write and no different energy-dump effect). -/
theorem halt_cmd_idempotent (idv : ℕ) (m : ModuleSt) (inp : Inputs) :
    execCmd idv m inp ('h' :: natDigits idv) = (hCmd m, []) ∧
    (hCmd m).state = 5 ∧ (hCmd m).pwm = 0 ∧ (hCmd m).enable = false ∧
    (hCmd m).output_relay = false ∧
    (hCmd m).eeLog = (if m.state ≠ 5 then (1, 1) :: m.eeLog else m.eeLog) ∧
    (hCmd m).ee_halted = (if m.state ≠ 5 then 1 else m.ee_halted) ∧
    execCmd idv (hCmd m) inp ('h' :: natDigits idv) = (hCmd m, []) ∧
    hCmd (hCmd m) = hCmd m := by
  have hg : atoiZ (natDigits idv) = (idv : ℤ) := atoiZ_natDigits_nil idv
  have hdisp : ∀ mm : ModuleSt, execCmd idv mm inp ('h' :: natDigits idv) = (hCmd mm, []) := by
    intro mm
    rw [execCmd_dispatch idv mm inp 'h' (natDigits idv) hg (natDigits_ne_nil idv)]
    simp
  have hidem : hCmd (hCmd m) = hCmd m := by
    by_cases h : m.state ≠ 5 <;> simp [hCmd, h]
  refine ⟨hdisp m, ?_, ?_, ?_, ?_, ?_, ?_, by rw [hdisp, hidem], hidem⟩
  all_goals by_cases h : m.state ≠ 5 <;> simp [hCmd, h]

/-- C8: a complete command line whose numeric id field does not parse to
this module's id is dropped whole: the module state (finite state, duty,
error code, power limit, EEPROM cells and write log, output lines) is
returned untouched and no response byte is produced. -/
theorem wrong_id_ignored (idv : ℕ) (m : ModuleSt) (inp : Inputs) (cli : List Char)
    (h : atoiZ (cli.drop 1) ≠ (idv : ℤ)) :
    execCmd idv m inp cli = (m, []) := by
  simp only [execCmd]
  rw [if_neg (by rintro ⟨-, h2⟩; exact h h2)]

/-- C8 (witness): module 0 ignores `h1;`. -/
theorem wrong_id_ignored_witness :
    atoiZ ((['h', '1'] : List Char).drop 1) ≠ ((0 : ℕ) : ℤ) ∧
    execCmd 0 m0 inp0 ['h', '1'] = (m0, []) :=
  ⟨by decide, wrong_id_ignored 0 m0 inp0 ['h', '1'] (by decide)⟩

/-- C9: for `p<id>:<watts>;` addressed to this module (single-digit id,
`watts` within the 16-bit `int` range of the AVR `atoi`), the power limit
is updated exactly when 50 ≤ watts ≤ 425; the EEPROM cell 0 is written
(with watts/2) exactly when the value is accepted and differs from the
current limit; an out-of-range value changes neither `max_power` nor the
persisted cell; and no response bytes are ever produced. -/
theorem setpower_cmd (idv w : ℕ) (m : ModuleSt) (inp : Inputs)
    (hid : idv < 10) (hw : w < 32768) :
    (execCmd idv m inp ('p' :: natDigits idv ++ ':' :: natDigits w)).2 = [] ∧
    (execCmd idv m inp ('p' :: natDigits idv ++ ':' :: natDigits w)).1.max_power
      = (if 50 ≤ w ∧ w ≤ 425 then w else m.max_power) ∧
    (execCmd idv m inp ('p' :: natDigits idv ++ ':' :: natDigits w)).1.ee_max
      = (if 50 ≤ w ∧ w ≤ 425 ∧ w ≠ m.max_power then w / 2 else m.ee_max) ∧
    (execCmd idv m inp ('p' :: natDigits idv ++ ':' :: natDigits w)).1.eeLog
      = (if 50 ≤ w ∧ w ≤ 425 ∧ w ≠ m.max_power then (0, w / 2) :: m.eeLog else m.eeLog) ∧
    (execCmd idv m inp ('p' :: natDigits idv ++ ':' :: natDigits w)).1.state = m.state ∧
    (execCmd idv m inp ('p' :: natDigits idv ++ ':' :: natDigits w)).1.pwm = m.pwm ∧
    (execCmd idv m inp ('p' :: natDigits idv ++ ':' :: natDigits w)).1.error_code
      = m.error_code := by
  have hg : atoiZ (natDigits idv ++ ':' :: natDigits w) = (idv : ℤ) :=
    atoiZ_natDigits idv (':' :: natDigits w) (by simp [List.headD_cons])
  have hdisp := execCmd_dispatch idv m inp 'p' (natDigits idv ++ ':' :: natDigits w) hg
    (by simp [natDigits_ne_nil])
  have hone : natDigits idv = [digCh idv] := by rw [natDigits_eq, if_pos hid]
  have hmp : ((atoiZ (('p' :: (natDigits idv ++ ':' :: natDigits w)).drop 3)) % 65536).toNat
      = w := by
    rw [hone]
    show ((atoiZ (natDigits w)) % 65536).toNat = w
    rw [atoiZ_natDigits_nil w, Int.emod_eq_of_lt (by omega) (by omega)]
    omega
  simp only [List.cons_append]
  rw [hdisp, if_neg (by decide : ¬('p' : Char) = 'i'), if_neg (by decide : ¬('p' : Char) = 'h'),
    if_neg (by decide : ¬('p' : Char) = 's'), if_neg (by decide : ¬('p' : Char) = 'r'),
    if_pos (rfl : ('p' : Char) = 'p')]
  simp only [pCmd, hmp, MIN_MAX_POWER, MAX_POWER]
  by_cases h1 : 50 ≤ w ∧ w ≤ 425
  · by_cases h2 : w ≠ m.max_power
    · simp [h1, h2]
    · simp only [ne_eq, not_not] at h2
      simp [h1, h2]
  · have h3 : ¬(50 ≤ w ∧ w ≤ 425 ∧ w ≠ m.max_power) := by tauto
    simp [h1, h3]

/-- C9 (witness): `p0:100;` at module 0 with limit previously 0. -/
theorem setpower_cmd_witness :
    ((0 : ℕ) < 10 ∧ (100 : ℕ) < 32768) ∧
    ((execCmd 0 m0 inp0 ('p' :: natDigits 0 ++ ':' :: natDigits 100)).2 = [] ∧
     (execCmd 0 m0 inp0 ('p' :: natDigits 0 ++ ':' :: natDigits 100)).1.max_power
       = (if 50 ≤ 100 ∧ 100 ≤ 425 then 100 else m0.max_power) ∧
     (execCmd 0 m0 inp0 ('p' :: natDigits 0 ++ ':' :: natDigits 100)).1.ee_max
       = (if 50 ≤ 100 ∧ 100 ≤ 425 ∧ 100 ≠ m0.max_power then 100 / 2 else m0.ee_max) ∧
     (execCmd 0 m0 inp0 ('p' :: natDigits 0 ++ ':' :: natDigits 100)).1.eeLog
       = (if 50 ≤ 100 ∧ 100 ≤ 425 ∧ 100 ≠ m0.max_power then (0, 100 / 2) :: m0.eeLog
          else m0.eeLog) ∧
     (execCmd 0 m0 inp0 ('p' :: natDigits 0 ++ ':' :: natDigits 100)).1.state = m0.state ∧
     (execCmd 0 m0 inp0 ('p' :: natDigits 0 ++ ':' :: natDigits 100)).1.pwm = m0.pwm ∧
     (execCmd 0 m0 inp0 ('p' :: natDigits 0 ++ ':' :: natDigits 100)).1.error_code
       = m0.error_code) :=
  ⟨⟨by decide, by decide⟩, setpower_cmd 0 100 m0 inp0 (by decide) (by decide)⟩

/-! ## C10: the duty invariant -/

theorem s3_apply_le_up (p : ℕ) (hp : p ≤ 314) : s3_apply p 1 ≤ 314 := by
  have hm : ((p : ℤ) + 1) % 65536 = (p : ℤ) + 1 :=
    Int.emod_eq_of_lt (by omega) (by omega)
  simp only [s3_apply, hm]
  split_ifs <;> omega

theorem s3_apply_le_down (p : ℕ) (hp : p ≤ 314) (hz : p ≠ 0) : s3_apply p (-1) ≤ 314 := by
  have hm : ((p : ℤ) + (-1)) % 65536 = (p : ℤ) + (-1) :=
    Int.emod_eq_of_lt (by omega) (by omega)
  simp only [s3_apply, hm]
  split_ifs <;> omega

theorem hCmd_pwm (m : ModuleSt) : (hCmd m).pwm = 0 := rfl

theorem hCmd_direction (m : ModuleSt) : (hCmd m).direction = m.direction := by
  by_cases h : m.state ≠ 5 <;> simp [hCmd, h]

theorem sCmd_pwm (inp : Inputs) (m : ModuleSt) : (sCmd inp m).pwm = 0 := rfl

theorem sCmd_direction (inp : Inputs) (m : ModuleSt) :
    (sCmd inp m).direction = m.direction := by
  by_cases h : m.ee_halted ≠ 0 <;> simp [sCmd, h]

theorem rCmd_pwm (inp : Inputs) (m : ModuleSt) : (rCmd inp m).pwm = 0 := rfl

theorem rCmd_direction (inp : Inputs) (m : ModuleSt) :
    (rCmd inp m).direction = m.direction := by
  by_cases h : m.ee_halted ≠ 0 <;> simp [rCmd, h]

theorem pCmd_pwm (cli : List Char) (m : ModuleSt) : (pCmd cli m).pwm = m.pwm := by
  simp only [pCmd]
  split_ifs <;> rfl

theorem pCmd_direction (cli : List Char) (m : ModuleSt) :
    (pCmd cli m).direction = m.direction := by
  simp only [pCmd]
  split_ifs <;> rfl

/-- Every serial command either clears the duty or leaves it alone, and
none touches the MPPT direction. -/
theorem execCmd_pwm_dir (idv : ℕ) (m : ModuleSt) (inp : Inputs) (cli : List Char) :
    ((execCmd idv m inp cli).1.pwm = 0 ∨ (execCmd idv m inp cli).1.pwm = m.pwm) ∧
    (execCmd idv m inp cli).1.direction = m.direction := by
  cases cli with
  | nil => simp [execCmd]
  | cons c cs =>
    simp only [execCmd]
    split
    · split_ifs
      · simp
      · simp [hCmd_pwm, hCmd_direction]
      · simp [sCmd_pwm, sCmd_direction]
      · simp [rCmd_pwm, rCmd_direction]
      · simp [pCmd_pwm, pCmd_direction]
      · simp
    · simp

theorem execLines_pwm_dir (idv : ℕ) (inp : Inputs) :
    ∀ (lines : List (List Char)) (m : ModuleSt),
    ((execLines idv inp m lines).1.pwm = 0 ∨ (execLines idv inp m lines).1.pwm = m.pwm) ∧
    (execLines idv inp m lines).1.direction = m.direction := by
  intro lines
  induction lines with
  | nil => intro m; simp [execLines]
  | cons l ls ih =>
    intro m
    simp only [execLines]
    obtain ⟨h1, h2⟩ := execCmd_pwm_dir idv m inp l
    obtain ⟨h3, h4⟩ := ih (execCmd idv m inp l).1
    refine ⟨?_, by rw [h4, h2]⟩
    rcases h3 with h3 | h3
    · exact Or.inl h3
    · rw [h3]; exact h1

theorem tempFanStep_pwm_dir (m : ModuleSt) (inp : Inputs) :
    (tempFanStep m inp).pwm = m.pwm ∧ (tempFanStep m inp).direction = m.direction := by
  simp only [tempFanStep]
  split_ifs <;> simp

theorem s2UnderVolt_pwm_dir (inp : Inputs) (m : ModuleSt) :
    ((s2UnderVolt inp m).pwm = 0 ∨ (s2UnderVolt inp m).pwm = m.pwm) ∧
    (s2UnderVolt inp m).direction = m.direction := by
  simp only [s2UnderVolt]
  split_ifs <;> simp

theorem s2OverFlag_pwm_dir (inp : Inputs) (m : ModuleSt) :
    (s2OverFlag inp m).pwm = m.pwm ∧ (s2OverFlag inp m).direction = m.direction := by
  simp only [s2OverFlag]
  split_ifs <;> simp

theorem s2Ramp_pwm_le (inp : Inputs) (m : ModuleSt) (hp : m.pwm ≤ 314) :
    (s2Ramp inp m).pwm ≤ 314 := by
  simp only [s2Ramp]
  split_ifs with h1 h2
  · simp; omega
  · simp; omega
  · exact hp

theorem s2Ramp_direction (inp : Inputs) (m : ModuleSt) :
    (s2Ramp inp m).direction = m.direction := by
  simp only [s2Ramp]
  split_ifs <;> simp

theorem s3UnderVolt_pwm_dir (inp : Inputs) (m : ModuleSt) :
    ((s3UnderVolt inp m).pwm = 0 ∨ (s3UnderVolt inp m).pwm = m.pwm) ∧
    (s3UnderVolt inp m).direction = m.direction := by
  simp only [s3UnderVolt]
  split_ifs <;> simp

theorem s3Mppt_pwm_dir (inp : Inputs) (m : ModuleSt) (hp : m.pwm ≤ 314)
    (hd : m.direction = 1 ∨ m.direction = -1) :
    (s3Mppt inp m).pwm ≤ 314 ∧
    ((s3Mppt inp m).direction = 1 ∨ (s3Mppt inp m).direction = -1) := by
  simp only [s3Mppt]
  by_cases hz : m.pwm = 0
  · rw [if_pos hz]
    exact ⟨s3_apply_le_up _ hp, Or.inl rfl⟩
  · rw [if_neg hz]
    rcases hd with h | h <;> rw [h] <;> split_ifs <;>
      first
        | exact ⟨s3_apply_le_up _ hp, Or.inl rfl⟩
        | exact ⟨s3_apply_le_down _ hp hz, Or.inr rfl⟩

theorem fsmStep_pwm_dir (m : ModuleSt) (inp : Inputs) (hp : m.pwm ≤ 314)
    (hd : m.direction = 1 ∨ m.direction = -1) :
    (fsmStep m inp).pwm ≤ 314 ∧
    ((fsmStep m inp).direction = 1 ∨ (fsmStep m inp).direction = -1) := by
  simp only [fsmStep]
  split_ifs with h0 h0t h1 h1v h2 h3
  · exact ⟨hp, hd⟩
  · exact ⟨hp, hd⟩
  · simp only []
    exact ⟨by simp, by simp [hd]⟩
  · exact ⟨hp, hd⟩
  · obtain ⟨hu, hud⟩ := s2UnderVolt_pwm_dir inp m
    obtain ⟨ho, hod⟩ := s2OverFlag_pwm_dir inp (s2UnderVolt inp m)
    have hple : (s2OverFlag inp (s2UnderVolt inp m)).pwm ≤ 314 := by
      rw [ho]; rcases hu with h | h <;> omega
    refine ⟨s2Ramp_pwm_le _ _ hple, ?_⟩
    rw [s2Ramp_direction, hod, hud]
    exact hd
  · obtain ⟨hu, hud⟩ := s3UnderVolt_pwm_dir inp m
    have hple : (s3UnderVolt inp m).pwm ≤ 314 := by rcases hu with h | h <;> omega
    exact s3Mppt_pwm_dir inp _ hple (by rw [hud]; exact hd)
  · exact ⟨hp, hd⟩

theorem shutdown4_pwm (m : ModuleSt) (e : ℕ) : (shutdown4 m e).pwm = 0 := rfl

theorem capLowChk_pd (inp : Inputs) (m : ModuleSt) :
    ((capLowChk inp m).pwm = 0 ∨ (capLowChk inp m).pwm = m.pwm) ∧
    (capLowChk inp m).direction = m.direction := by
  simp only [capLowChk]
  split_ifs <;> simp [shutdown4]

theorem capHighChk_pd (inp : Inputs) (m : ModuleSt) :
    ((capHighChk inp m).pwm = 0 ∨ (capHighChk inp m).pwm = m.pwm) ∧
    (capHighChk inp m).direction = m.direction := by
  simp only [capHighChk]
  split_ifs <;> simp [shutdown4]

theorem overCurChk_pd (inp : Inputs) (m : ModuleSt) :
    ((overCurChk inp m).pwm = 0 ∨ (overCurChk inp m).pwm = m.pwm) ∧
    (overCurChk inp m).direction = m.direction := by
  simp only [overCurChk]
  split_ifs <;> simp [shutdown4]

theorem negCurChk_pd (inp : Inputs) (m : ModuleSt) :
    ((negCurChk inp m).pwm = 0 ∨ (negCurChk inp m).pwm = m.pwm) ∧
    (negCurChk inp m).direction = m.direction := by
  simp only [negCurChk]
  split_ifs <;> simp [shutdown4]

theorem overTempChk_pd (m : ModuleSt) :
    ((overTempChk m).pwm = 0 ∨ (overTempChk m).pwm = m.pwm) ∧
    (overTempChk m).direction = m.direction := by
  simp only [overTempChk]
  split_ifs <;> simp [shutdown4]

theorem underTempChk_pd (m : ModuleSt) :
    ((underTempChk m).pwm = 0 ∨ (underTempChk m).pwm = m.pwm) ∧
    (underTempChk m).direction = m.direction := by
  simp only [underTempChk]
  split_ifs <;> simp [shutdown4]

theorem interlocks_pwm_dir (m : ModuleSt) (inp : Inputs) (hp : m.pwm ≤ 314) :
    (interlocks m inp).pwm ≤ 314 ∧ (interlocks m inp).direction = m.direction := by
  obtain ⟨p1, d1⟩ := capLowChk_pd inp m
  obtain ⟨p2, d2⟩ := capHighChk_pd inp (capLowChk inp m)
  obtain ⟨p3, d3⟩ := overCurChk_pd inp (capHighChk inp (capLowChk inp m))
  obtain ⟨p4, d4⟩ := negCurChk_pd inp (overCurChk inp (capHighChk inp (capLowChk inp m)))
  obtain ⟨p5, d5⟩ := overTempChk_pd
    (negCurChk inp (overCurChk inp (capHighChk inp (capLowChk inp m))))
  obtain ⟨p6, d6⟩ := underTempChk_pd
    (overTempChk (negCurChk inp (overCurChk inp (capHighChk inp (capLowChk inp m)))))
  simp only [interlocks, faultLedSet]
  constructor
  · rcases p6 with p6 | p6
    · simp [p6]
    · rcases p5 with p5 | p5
      · simp [p6, p5]
      · rcases p4 with p4 | p4
        · simp [p6, p5, p4]
        · rcases p3 with p3 | p3
          · simp [p6, p5, p4, p3]
          · rcases p2 with p2 | p2
            · simp [p6, p5, p4, p3, p2]
            · rcases p1 with p1 | p1
              · simp [p6, p5, p4, p3, p2, p1]
              · simp [p6, p5, p4, p3, p2, p1, hp]
  · rw [d6, d5, d4, d3, d2, d1]

theorem writeOcr_facts (mm : ModuleSt) :
    (writeOcr mm).ocr1b = mm.pwm ∧ (writeOcr mm).pwm = mm.pwm ∧
    (writeOcr mm).direction = mm.direction := by
  simp only [writeOcr]
  split_ifs with h
  · simp
  · simp only [ne_eq, not_not] at h
    exact ⟨h.symm, rfl, rfl⟩

/-- C10: the duty value stays within 0..314 across every whole `loop()`
iteration (temperature poll, any batch of complete serial commands, the
state machine pass and the interlock pass) and across every single
command, as long as the MPPT direction is one of +1 or -1 (which itself is
preserved, and holds from boot where `direction = -1`); consequently the
value written to the OCR1B compare register equals the final duty and
never reaches TOP (325). -/
theorem duty_invariant (idv : ℕ) (m : ModuleSt) (inp : Inputs) (lines : List (List Char))
    (hp : m.pwm ≤ 314) (hd : m.direction = 1 ∨ m.direction = -1) :
    (loopStep idv m inp lines).1.pwm ≤ 314 ∧
    ((loopStep idv m inp lines).1.direction = 1 ∨
      (loopStep idv m inp lines).1.direction = -1) ∧
    (loopStep idv m inp lines).1.ocr1b = (loopStep idv m inp lines).1.pwm ∧
    (loopStep idv m inp lines).1.ocr1b < TOP ∧
    (∀ cli, (execCmd idv m inp cli).1.pwm ≤ 314) := by
  obtain ⟨ht, htd⟩ := tempFanStep_pwm_dir m inp
  obtain ⟨he, hed⟩ := execLines_pwm_dir idv inp lines (tempFanStep m inp)
  have hpe : (execLines idv inp (tempFanStep m inp) lines).1.pwm ≤ 314 := by
    rcases he with h | h <;> omega
  have hde : (execLines idv inp (tempFanStep m inp) lines).1.direction = 1 ∨
      (execLines idv inp (tempFanStep m inp) lines).1.direction = -1 := by
    rw [hed, htd]; exact hd
  obtain ⟨hf, hfd⟩ := fsmStep_pwm_dir (execLines idv inp (tempFanStep m inp) lines).1 inp hpe hde
  obtain ⟨hi, hidir⟩ := interlocks_pwm_dir
    (fsmStep (execLines idv inp (tempFanStep m inp) lines).1 inp) inp hf
  obtain ⟨ho1, ho2, ho3⟩ := writeOcr_facts
    (interlocks (fsmStep (execLines idv inp (tempFanStep m inp) lines).1 inp) inp)
  simp only [loopStep]
  refine ⟨?_, ?_, ?_, ?_, fun cli => ?_⟩
  · rw [ho2]; exact hi
  · rw [ho3, hidir]; exact hfd
  · rw [ho1, ho2]
  · rw [ho1]
    simp only [TOP]
    omega
  · rcases (execCmd_pwm_dir idv m inp cli).1 with h | h <;> omega

/-- C10 (witness): the invariant theorem at the quiescent state with one
halt line addressed to module 0. -/
theorem duty_invariant_witness :
    (m0.pwm ≤ 314 ∧ (m0.direction = 1 ∨ m0.direction = -1)) ∧
    ((loopStep 0 m0 inp0 [['h', '0']]).1.pwm ≤ 314 ∧
     ((loopStep 0 m0 inp0 [['h', '0']]).1.direction = 1 ∨
       (loopStep 0 m0 inp0 [['h', '0']]).1.direction = -1) ∧
     (loopStep 0 m0 inp0 [['h', '0']]).1.ocr1b = (loopStep 0 m0 inp0 [['h', '0']]).1.pwm ∧
     (loopStep 0 m0 inp0 [['h', '0']]).1.ocr1b < TOP ∧
     (∀ cli, (execCmd 0 m0 inp0 cli).1.pwm ≤ 314)) :=
  ⟨⟨by decide, Or.inr (by decide)⟩,
    duty_invariant 0 m0 inp0 [['h', '0']] (by decide) (Or.inr (by decide))⟩

/-! ## C2 (amended): the exact effect of a failed parse -/

/-- C2 (amended): `parse` stores each field the moment it is extracted, so
failure is not all-or-nothing.  An `i` line carrying id, state and pwm but
nothing further returns -1 with the addressed slot's state and pwm already
overwritten (all other slots untouched); while for every line that is not
an `i` line, a failed parse leaves the table completely unchanged. -/
theorem parse_failed_update_shape (idm st pw : ℕ) (tbl : List ModRecord) (r₀ : ModRecord)
    (hid : idm < MODULES) (hget : tbl.get? idm = some r₀) :
    ((parse ('i' :: ';' :: (natDigits idm ++ ';' :: (natDigits st ++ ';' :: natDigits pw))) tbl).1
        = -1 ∧
      (parse ('i' :: ';' :: (natDigits idm ++ ';' :: (natDigits st ++ ';' :: natDigits pw)))
          tbl).2.get? idm
        = some { r₀ with state := (st : ℤ), pwm := (pw : ℤ) } ∧
      (∀ j, j ≠ idm →
        (parse ('i' :: ';' :: (natDigits idm ++ ';' :: (natDigits st ++ ';' :: natDigits pw)))
            tbl).2.get? j
          = tbl.get? j)) ∧
    (∀ line : List Char, line.headD ' ' ≠ 'i' → (parse line tbl).1 = -1 →
      (parse line tbl).2 = tbl) := by
  constructor
  · have hlen3 : ¬('i' :: ';' :: (natDigits idm ++ ';' :: (natDigits st ++ ';' :: natDigits pw))).length < 3 := by
      simp only [List.length_cons, List.length_append]
      omega
    have h5 : atoiZ (natDigits idm ++ ';' :: (natDigits st ++ ';' :: natDigits pw)) = (idm : ℤ) :=
      atoiZ_natDigits _ _ (by simp [List.headD_cons])
    have h7 : next_value (natDigits idm ++ ';' :: (natDigits st ++ ';' :: natDigits pw))
        = some (natDigits st ++ ';' :: natDigits pw) :=
      next_value_append _ _ (semi_not_mem_natDigits idm)
    have h8 : atoiZ (natDigits st ++ ';' :: natDigits pw) = (st : ℤ) :=
      atoiZ_natDigits _ _ (by simp [List.headD_cons])
    have h9 : next_value (natDigits st ++ ';' :: natDigits pw) = some (natDigits pw) :=
      next_value_append _ _ (semi_not_mem_natDigits st)
    have h10 : next_value (natDigits pw) = none := next_value_none _ (semi_not_mem_natDigits pw)
    have hrange : ¬((idm : ℤ) < 0 ∨ ((MODULES : ℕ) : ℤ) ≤ (idm : ℤ)) := by
      omega
    have hPI : parseI (natDigits idm ++ ';' :: (natDigits st ++ ';' :: natDigits pw))
        ((idm : ℕ) : ℤ) tbl =
        (-1, modAt (modAt tbl idm (fun r => { r with state := (st : ℤ) })) idm
          (fun r => { r with pwm := (pw : ℤ) })) := by
      simp only [parseI, h7, h8, h9, h10, atoiZ_natDigits_nil, Int.toNat_natCast]
    have hdrop : (('i' :: ';' :: (natDigits idm ++ ';' :: (natDigits st ++ ';' :: natDigits pw))) : List Char).drop 2
        = natDigits idm ++ ';' :: (natDigits st ++ ';' :: natDigits pw) := rfl
    simp only [parse, if_neg hlen3, List.headD_cons, hdrop, h5]
    rw [if_neg (show ¬('i' : Char) = 'e' by decide), if_neg hrange, hPI, if_pos trivial]
    refine ⟨rfl, ?_, ?_⟩
    · rw [modAt_get_self, modAt_get_self, hget]
      rfl
    · intro j hj
      rw [modAt_get_ne _ _ _ _ hj, modAt_get_ne _ _ _ _ hj]
  · intro line hline hfail
    by_cases hl3 : line.length < 3
    · simp [parse, hl3]
    · cases line with
      | nil => simp [parse] at hl3 ⊢
      | cons c cs =>
        simp only [List.headD_cons] at hline
        by_cases hce : c = 'e'
        · subst hce
          simp only [parse, if_neg hl3, List.headD_cons] at hfail ⊢
          rw [if_pos trivial] at hfail ⊢
          by_cases hr : atoiZ (List.drop 2 ('e' :: cs)) < 0 ∨
              ((MODULES : ℕ) : ℤ) ≤ atoiZ (List.drop 2 ('e' :: cs))
          · rw [if_pos hr]
          · rw [if_neg hr] at hfail ⊢
            simp only [parseE] at hfail ⊢
            rcases hnv : next_value (List.drop 2 ('e' :: cs)) with _ | p
            · rfl
            · rw [hnv] at hfail
              exfalso
              have h2 : atoiZ (List.drop 2 ('e' :: cs)) = -1 := hfail
              omega
        · simp only [parse, if_neg hl3, List.headD_cons, if_neg hce, if_neg hline]

/-- C2 (witness): the amended theorem at id 0, state 9, pwm 100 on the
boot table. -/
theorem parse_failed_update_shape_witness :
    ((0 : ℕ) < MODULES ∧ tbl0.get? 0 = some rec0) ∧
    (((parse ('i' :: ';' :: (natDigits 0 ++ ';' :: (natDigits 9 ++ ';' :: natDigits 100))) tbl0).1
        = -1 ∧
      (parse ('i' :: ';' :: (natDigits 0 ++ ';' :: (natDigits 9 ++ ';' :: natDigits 100)))
          tbl0).2.get? 0
        = some { rec0 with state := ((9 : ℕ) : ℤ), pwm := ((100 : ℕ) : ℤ) } ∧
      (∀ j, j ≠ 0 →
        (parse ('i' :: ';' :: (natDigits 0 ++ ';' :: (natDigits 9 ++ ';' :: natDigits 100)))
            tbl0).2.get? j
          = tbl0.get? j)) ∧
    (∀ line : List Char, line.headD ' ' ≠ 'i' → (parse line tbl0).1 = -1 →
      (parse line tbl0).2 = tbl0)) :=
  ⟨⟨by decide, rfl⟩, parse_failed_update_shape 0 9 100 tbl0 rec0 (by decide) rfl⟩

/-! ## C6: wire round-trip of the info response -/

theorem semi_not_mem_fmt2Pos (q : ℚ) : ';' ∉ fmt2Pos q := by
  intro h
  simp only [fmt2Pos, List.mem_append, List.mem_cons, List.not_mem_nil, or_false] at h
  rcases h with h | h | h | h
  · exact semi_not_mem_natDigits _ h
  · exact (by decide : (';' : Char) ≠ '.') h
  · exact (digCh_facts (fmt2N q % 100 / 10) (by omega)).2.2.2.2.1 h.symm
  · exact (digCh_facts (fmt2N q % 10) (by omega)).2.2.2.2.1 h.symm

theorem semi_not_mem_fmt2 (q : ℚ) : ';' ∉ fmt2 q := by
  simp only [fmt2]
  split_ifs
  · intro h
    rcases List.mem_cons.mp h with h | h
    · exact (by decide : (';' : Char) ≠ '-') h
    · exact semi_not_mem_fmt2Pos _ h
  · exact semi_not_mem_fmt2Pos _

/-- C6: round-trip across the wire.  Formatting the module's `i;...` info
response line from a snapshot (state, duty, the sensed voltage, current and
capacitor readings given to the emitted two-decimal precision, the computed
power, the last sampled temperature and the fan speed) and running the
master's `parse` on the received line (which still carries the CR left by
the master's line assembly) reproduces state, duty and fan exactly, the
voltage, current, capacitor voltage and temperature exactly as emitted, and
the power to the emitted two-decimal precision, all in the addressed
`mod_st` slot; every other slot is untouched and the parse returns the
module id. -/
theorem info_roundtrip (idv st pw fan : ℕ) (vN aN cN tN : ℤ) (tbl : List ModRecord)
    (r₀ : ModRecord) (hid : idv < MODULES) (_hst : st ≤ 255) (_hpw : pw ≤ 32767)
    (_hfan : fan ≤ 32767) (hget : tbl.get? idv = some r₀) :
    (parse (infoLineBody idv { m0 with state := st, pwm := pw, temperature := (tN : ℚ) / 100 } { inp0 with voltage := (vN : ℚ) / 100, current := (aN : ℚ) / 100, cap_voltage := (cN : ℚ) / 100, fan := fan } ++ ['\r']) tbl).1 = (idv : ℤ) ∧
    (parse (infoLineBody idv { m0 with state := st, pwm := pw, temperature := (tN : ℚ) / 100 } { inp0 with voltage := (vN : ℚ) / 100, current := (aN : ℚ) / 100, cap_voltage := (cN : ℚ) / 100, fan := fan } ++ ['\r']) tbl).2.get? idv = some { r₀ with state := (st : ℤ), pwm := (pw : ℤ), fan := (fan : ℤ), v := (vN : ℚ) / 100, a := (aN : ℚ) / 100, w := asPrinted ((vN : ℚ) / 100 * ((aN : ℚ) / 100)), c := (cN : ℚ) / 100, temp := (tN : ℚ) / 100 } ∧
    (∀ j, j ≠ idv → (parse (infoLineBody idv { m0 with state := st, pwm := pw, temperature := (tN : ℚ) / 100 } { inp0 with voltage := (vN : ℚ) / 100, current := (aN : ℚ) / 100, cap_voltage := (cN : ℚ) / 100, fan := fan } ++ ['\r']) tbl).2.get? j = tbl.get? j) := by
  have hbody : (infoLineBody idv { m0 with state := st, pwm := pw, temperature := (tN : ℚ) / 100 } { inp0 with voltage := (vN : ℚ) / 100, current := (aN : ℚ) / 100, cap_voltage := (cN : ℚ) / 100, fan := fan } ++ ['\r'] : List Char) = 'i' :: ';' :: (natDigits idv ++ ';' :: (natDigits st ++ ';' :: (natDigits pw ++ ';' :: (fmt2 ((vN : ℚ) / 100) ++ ';' :: (fmt2 ((aN : ℚ) / 100) ++ ';' :: (fmt2 ((vN : ℚ) / 100 * ((aN : ℚ) / 100)) ++ ';' :: (fmt2 ((cN : ℚ) / 100) ++ ';' :: (fmt2 ((tN : ℚ) / 100) ++ ';' :: (natDigits fan ++ ['\r']))))))))) := by
    simp only [infoLineBody, List.cons_append, List.append_assoc, List.nil_append]
  have hv_id : atoiZ (natDigits idv ++ ';' :: (natDigits st ++ ';' :: (natDigits pw ++ ';' :: (fmt2 ((vN : ℚ) / 100) ++ ';' :: (fmt2 ((aN : ℚ) / 100) ++ ';' :: (fmt2 ((vN : ℚ) / 100 * ((aN : ℚ) / 100)) ++ ';' :: (fmt2 ((cN : ℚ) / 100) ++ ';' :: (fmt2 ((tN : ℚ) / 100) ++ ';' :: (natDigits fan ++ ['\r']))))))))) = (idv : ℤ) :=
    atoiZ_natDigits _ _ (by simp [List.headD_cons])
  have hn0 : next_value (natDigits idv ++ ';' :: (natDigits st ++ ';' :: (natDigits pw ++ ';' :: (fmt2 ((vN : ℚ) / 100) ++ ';' :: (fmt2 ((aN : ℚ) / 100) ++ ';' :: (fmt2 ((vN : ℚ) / 100 * ((aN : ℚ) / 100)) ++ ';' :: (fmt2 ((cN : ℚ) / 100) ++ ';' :: (fmt2 ((tN : ℚ) / 100) ++ ';' :: (natDigits fan ++ ['\r']))))))))) = some (natDigits st ++ ';' :: (natDigits pw ++ ';' :: (fmt2 ((vN : ℚ) / 100) ++ ';' :: (fmt2 ((aN : ℚ) / 100) ++ ';' :: (fmt2 ((vN : ℚ) / 100 * ((aN : ℚ) / 100)) ++ ';' :: (fmt2 ((cN : ℚ) / 100) ++ ';' :: (fmt2 ((tN : ℚ) / 100) ++ ';' :: (natDigits fan ++ ['\r'])))))))) :=
    next_value_append _ _ (semi_not_mem_natDigits idv)
  have hv_st : atoiZ (natDigits st ++ ';' :: (natDigits pw ++ ';' :: (fmt2 ((vN : ℚ) / 100) ++ ';' :: (fmt2 ((aN : ℚ) / 100) ++ ';' :: (fmt2 ((vN : ℚ) / 100 * ((aN : ℚ) / 100)) ++ ';' :: (fmt2 ((cN : ℚ) / 100) ++ ';' :: (fmt2 ((tN : ℚ) / 100) ++ ';' :: (natDigits fan ++ ['\r'])))))))) = (st : ℤ) :=
    atoiZ_natDigits _ _ (by simp [List.headD_cons])
  have hn1 : next_value (natDigits st ++ ';' :: (natDigits pw ++ ';' :: (fmt2 ((vN : ℚ) / 100) ++ ';' :: (fmt2 ((aN : ℚ) / 100) ++ ';' :: (fmt2 ((vN : ℚ) / 100 * ((aN : ℚ) / 100)) ++ ';' :: (fmt2 ((cN : ℚ) / 100) ++ ';' :: (fmt2 ((tN : ℚ) / 100) ++ ';' :: (natDigits fan ++ ['\r'])))))))) = some (natDigits pw ++ ';' :: (fmt2 ((vN : ℚ) / 100) ++ ';' :: (fmt2 ((aN : ℚ) / 100) ++ ';' :: (fmt2 ((vN : ℚ) / 100 * ((aN : ℚ) / 100)) ++ ';' :: (fmt2 ((cN : ℚ) / 100) ++ ';' :: (fmt2 ((tN : ℚ) / 100) ++ ';' :: (natDigits fan ++ ['\r']))))))) :=
    next_value_append _ _ (semi_not_mem_natDigits st)
  have hv_pw : atoiZ (natDigits pw ++ ';' :: (fmt2 ((vN : ℚ) / 100) ++ ';' :: (fmt2 ((aN : ℚ) / 100) ++ ';' :: (fmt2 ((vN : ℚ) / 100 * ((aN : ℚ) / 100)) ++ ';' :: (fmt2 ((cN : ℚ) / 100) ++ ';' :: (fmt2 ((tN : ℚ) / 100) ++ ';' :: (natDigits fan ++ ['\r']))))))) = (pw : ℤ) :=
    atoiZ_natDigits _ _ (by simp [List.headD_cons])
  have hn2 : next_value (natDigits pw ++ ';' :: (fmt2 ((vN : ℚ) / 100) ++ ';' :: (fmt2 ((aN : ℚ) / 100) ++ ';' :: (fmt2 ((vN : ℚ) / 100 * ((aN : ℚ) / 100)) ++ ';' :: (fmt2 ((cN : ℚ) / 100) ++ ';' :: (fmt2 ((tN : ℚ) / 100) ++ ';' :: (natDigits fan ++ ['\r']))))))) = some (fmt2 ((vN : ℚ) / 100) ++ ';' :: (fmt2 ((aN : ℚ) / 100) ++ ';' :: (fmt2 ((vN : ℚ) / 100 * ((aN : ℚ) / 100)) ++ ';' :: (fmt2 ((cN : ℚ) / 100) ++ ';' :: (fmt2 ((tN : ℚ) / 100) ++ ';' :: (natDigits fan ++ ['\r'])))))) :=
    next_value_append _ _ (semi_not_mem_natDigits pw)
  have hv_v : atofQ (fmt2 ((vN : ℚ) / 100) ++ ';' :: (fmt2 ((aN : ℚ) / 100) ++ ';' :: (fmt2 ((vN : ℚ) / 100 * ((aN : ℚ) / 100)) ++ ';' :: (fmt2 ((cN : ℚ) / 100) ++ ';' :: (fmt2 ((tN : ℚ) / 100) ++ ';' :: (natDigits fan ++ ['\r'])))))) = (vN : ℚ) / 100 := by
    rw [atofQ_fmt2 _ _ (by simp [List.headD_cons])]
    exact asPrinted_int_div vN
  have hn3 : next_value (fmt2 ((vN : ℚ) / 100) ++ ';' :: (fmt2 ((aN : ℚ) / 100) ++ ';' :: (fmt2 ((vN : ℚ) / 100 * ((aN : ℚ) / 100)) ++ ';' :: (fmt2 ((cN : ℚ) / 100) ++ ';' :: (fmt2 ((tN : ℚ) / 100) ++ ';' :: (natDigits fan ++ ['\r'])))))) = some (fmt2 ((aN : ℚ) / 100) ++ ';' :: (fmt2 ((vN : ℚ) / 100 * ((aN : ℚ) / 100)) ++ ';' :: (fmt2 ((cN : ℚ) / 100) ++ ';' :: (fmt2 ((tN : ℚ) / 100) ++ ';' :: (natDigits fan ++ ['\r']))))) :=
    next_value_append _ _ (semi_not_mem_fmt2 _)
  have hv_a : atofQ (fmt2 ((aN : ℚ) / 100) ++ ';' :: (fmt2 ((vN : ℚ) / 100 * ((aN : ℚ) / 100)) ++ ';' :: (fmt2 ((cN : ℚ) / 100) ++ ';' :: (fmt2 ((tN : ℚ) / 100) ++ ';' :: (natDigits fan ++ ['\r']))))) = (aN : ℚ) / 100 := by
    rw [atofQ_fmt2 _ _ (by simp [List.headD_cons])]
    exact asPrinted_int_div aN
  have hn4 : next_value (fmt2 ((aN : ℚ) / 100) ++ ';' :: (fmt2 ((vN : ℚ) / 100 * ((aN : ℚ) / 100)) ++ ';' :: (fmt2 ((cN : ℚ) / 100) ++ ';' :: (fmt2 ((tN : ℚ) / 100) ++ ';' :: (natDigits fan ++ ['\r']))))) = some (fmt2 ((vN : ℚ) / 100 * ((aN : ℚ) / 100)) ++ ';' :: (fmt2 ((cN : ℚ) / 100) ++ ';' :: (fmt2 ((tN : ℚ) / 100) ++ ';' :: (natDigits fan ++ ['\r'])))) :=
    next_value_append _ _ (semi_not_mem_fmt2 _)
  have hv_w : atofQ (fmt2 ((vN : ℚ) / 100 * ((aN : ℚ) / 100)) ++ ';' :: (fmt2 ((cN : ℚ) / 100) ++ ';' :: (fmt2 ((tN : ℚ) / 100) ++ ';' :: (natDigits fan ++ ['\r'])))) = asPrinted ((vN : ℚ) / 100 * ((aN : ℚ) / 100)) :=
    atofQ_fmt2 _ _ (by simp [List.headD_cons])
  have hn5 : next_value (fmt2 ((vN : ℚ) / 100 * ((aN : ℚ) / 100)) ++ ';' :: (fmt2 ((cN : ℚ) / 100) ++ ';' :: (fmt2 ((tN : ℚ) / 100) ++ ';' :: (natDigits fan ++ ['\r'])))) = some (fmt2 ((cN : ℚ) / 100) ++ ';' :: (fmt2 ((tN : ℚ) / 100) ++ ';' :: (natDigits fan ++ ['\r']))) :=
    next_value_append _ _ (semi_not_mem_fmt2 _)
  have hv_c : atofQ (fmt2 ((cN : ℚ) / 100) ++ ';' :: (fmt2 ((tN : ℚ) / 100) ++ ';' :: (natDigits fan ++ ['\r']))) = (cN : ℚ) / 100 := by
    rw [atofQ_fmt2 _ _ (by simp [List.headD_cons])]
    exact asPrinted_int_div cN
  have hn6 : next_value (fmt2 ((cN : ℚ) / 100) ++ ';' :: (fmt2 ((tN : ℚ) / 100) ++ ';' :: (natDigits fan ++ ['\r']))) = some (fmt2 ((tN : ℚ) / 100) ++ ';' :: (natDigits fan ++ ['\r'])) :=
    next_value_append _ _ (semi_not_mem_fmt2 _)
  have hv_t : atofQ (fmt2 ((tN : ℚ) / 100) ++ ';' :: (natDigits fan ++ ['\r'])) = (tN : ℚ) / 100 := by
    rw [atofQ_fmt2 _ _ (by simp [List.headD_cons])]
    exact asPrinted_int_div tN
  have hn7 : next_value (fmt2 ((tN : ℚ) / 100) ++ ';' :: (natDigits fan ++ ['\r'])) = some (natDigits fan ++ ['\r']) :=
    next_value_append _ _ (semi_not_mem_fmt2 _)
  have hv_fan : atoiZ (natDigits fan ++ ['\r']) = (fan : ℤ) :=
    atoiZ_natDigits _ _ (by decide)
  have hrange : ¬((idv : ℤ) < 0 ∨ ((MODULES : ℕ) : ℤ) ≤ (idv : ℤ)) := by
    omega
  have hlen3 : ¬(('i' :: ';' :: (natDigits idv ++ ';' :: (natDigits st ++ ';' :: (natDigits pw ++ ';' :: (fmt2 ((vN : ℚ) / 100) ++ ';' :: (fmt2 ((aN : ℚ) / 100) ++ ';' :: (fmt2 ((vN : ℚ) / 100 * ((aN : ℚ) / 100)) ++ ';' :: (fmt2 ((cN : ℚ) / 100) ++ ';' :: (fmt2 ((tN : ℚ) / 100) ++ ';' :: (natDigits fan ++ ['\r'])))))))))) : List Char).length < 3 := by
    simp only [List.length_cons, List.length_append]
    omega
  have hPI : parseI (natDigits idv ++ ';' :: (natDigits st ++ ';' :: (natDigits pw ++ ';' :: (fmt2 ((vN : ℚ) / 100) ++ ';' :: (fmt2 ((aN : ℚ) / 100) ++ ';' :: (fmt2 ((vN : ℚ) / 100 * ((aN : ℚ) / 100)) ++ ';' :: (fmt2 ((cN : ℚ) / 100) ++ ';' :: (fmt2 ((tN : ℚ) / 100) ++ ';' :: (natDigits fan ++ ['\r']))))))))) ((idv : ℕ) : ℤ) tbl =
      ((idv : ℤ),
        modAt (modAt (modAt (modAt (modAt (modAt (modAt (modAt
          tbl idv (fun r => { r with state := (st : ℤ) }))
          idv (fun r => { r with pwm := (pw : ℤ) }))
          idv (fun r => { r with v := (vN : ℚ) / 100 }))
          idv (fun r => { r with a := (aN : ℚ) / 100 }))
          idv (fun r => { r with w := asPrinted ((vN : ℚ) / 100 * ((aN : ℚ) / 100)) }))
          idv (fun r => { r with c := (cN : ℚ) / 100 }))
          idv (fun r => { r with temp := (tN : ℚ) / 100 }))
          idv (fun r => { r with fan := (fan : ℤ) })) := by
    simp only [parseI, hn0, hn1, hn2, hn3, hn4, hn5, hn6, hn7,
      hv_st, hv_pw, hv_v, hv_a, hv_w, hv_c, hv_t, hv_fan, Int.toNat_natCast]
  have hdrop : ∀ x : List Char, (('i' :: ';' :: x) : List Char).drop 2 = x := fun x => rfl
  rw [hbody]
  simp only [parse, if_neg hlen3, List.headD_cons, hdrop, hv_id]
  rw [if_neg (show ¬('i' : Char) = 'e' by decide), if_neg hrange, hPI, if_pos trivial]
  refine ⟨rfl, ?_, ?_⟩
  · rw [modAt_get_self, modAt_get_self, modAt_get_self, modAt_get_self, modAt_get_self,
      modAt_get_self, modAt_get_self, modAt_get_self, hget]
    rfl
  · intro j hj
    rw [modAt_get_ne _ _ _ _ hj, modAt_get_ne _ _ _ _ hj, modAt_get_ne _ _ _ _ hj,
      modAt_get_ne _ _ _ _ hj, modAt_get_ne _ _ _ _ hj, modAt_get_ne _ _ _ _ hj,
      modAt_get_ne _ _ _ _ hj, modAt_get_ne _ _ _ _ hj]

/-- C6 (witness): the round-trip theorem at module 2, state 3, duty 100,
55.00V, 0.40A, 200.00V on the capacitor, 25.00C, fan 1000 RPM. -/
theorem info_roundtrip_witness :
    ((2 : ℕ) < MODULES ∧ (3 : ℕ) ≤ 255 ∧ (100 : ℕ) ≤ 32767 ∧ (1000 : ℕ) ≤ 32767 ∧
      tbl0.get? 2 = some rec0) ∧
    ((parse (infoLineBody 2 { m0 with state := 3, pwm := 100, temperature := ((2500 : ℤ) : ℚ) / 100 } { inp0 with voltage := ((5500 : ℤ) : ℚ) / 100, current := ((40 : ℤ) : ℚ) / 100, cap_voltage := ((20000 : ℤ) : ℚ) / 100, fan := 1000 } ++ ['\r']) tbl0).1 = ((2 : ℕ) : ℤ) ∧
     (parse (infoLineBody 2 { m0 with state := 3, pwm := 100, temperature := ((2500 : ℤ) : ℚ) / 100 } { inp0 with voltage := ((5500 : ℤ) : ℚ) / 100, current := ((40 : ℤ) : ℚ) / 100, cap_voltage := ((20000 : ℤ) : ℚ) / 100, fan := 1000 } ++ ['\r']) tbl0).2.get? 2 = some { rec0 with state := ((3 : ℕ) : ℤ), pwm := ((100 : ℕ) : ℤ), fan := ((1000 : ℕ) : ℤ), v := ((5500 : ℤ) : ℚ) / 100, a := ((40 : ℤ) : ℚ) / 100, w := asPrinted (((5500 : ℤ) : ℚ) / 100 * (((40 : ℤ) : ℚ) / 100)), c := ((20000 : ℤ) : ℚ) / 100, temp := ((2500 : ℤ) : ℚ) / 100 } ∧
     (∀ j, j ≠ 2 → (parse (infoLineBody 2 { m0 with state := 3, pwm := 100, temperature := ((2500 : ℤ) : ℚ) / 100 } { inp0 with voltage := ((5500 : ℤ) : ℚ) / 100, current := ((40 : ℤ) : ℚ) / 100, cap_voltage := ((20000 : ℤ) : ℚ) / 100, fan := 1000 } ++ ['\r']) tbl0).2.get? j = tbl0.get? j)) :=
  ⟨⟨by decide, by decide, by decide, by decide, rfl⟩,
    info_roundtrip 2 3 100 1000 5500 40 20000 2500 tbl0 rec0 (by decide) (by decide)
      (by decide) (by decide) rfl⟩
